import Mathlib

/-!
# WaveRoom session server: shallow embedding and verification

This file embeds the session-registry / playback-state-machine core of the
WaveRoom server (`src/server.js`, the socket handlers `room:create`,
`room:join`, `track:set`, `ai:state`, `audio:play`, `audio:pause`,
`audio:seek`, `disconnect`, and the periodic room GC sweep) as executable
Lean definitions, and proves or refutes the specification's claims about it.

Modelling conventions:
* Socket ids are `Nat`; room codes are `String`.
* JS `null`/absent values become `Option`; timestamps are `Int` milliseconds.
* The global `rooms` object is an association list `List (String × Room)`
  with first-match lookup (JS object keys are unique, so theorems that need
  uniqueness take a `Nodup` hypothesis on the key list).
* Per-socket mutable data (`socket.data.code`, `socket.data.isHost`) and
  socket.io channel membership (`socket.join`) live in a `Conn` record.
* `Math.random`-driven code generation is modelled by an injected stream of
  candidate codes (`gen : Nat → String`); `makeCode` over an index stream
  characterises which strings the real generator can produce.
* A handler returns the new server state, a list of emitted events with
  their socket.io destination, and an optional synchronous reply (`cb`).
  Delivery of a destination is resolved against the post-handler state,
  matching socket.io (a disconnected socket has already left its channels
  when the `disconnect` handler runs).
-/

namespace Waveroom

/-- Track payload stored by `track:set` (`{streamUrl, title, originalUrl, directUrl}`). -/
structure Track where
  streamUrl : String
  title : String
  originalUrl : String
  directUrl : String
deriving DecidableEq

/-- AI analysis state stored on a room (`{genre, mood, preset, confidence}`). -/
structure AiState where
  genre : Option String
  mood : Option String
  preset : String
  confidence : Option Int
deriving DecidableEq

/-- Playback state `{playing, position, serverPlayAt}` of a room. -/
structure PlayState where
  playing : Bool
  position : Int
  serverPlayAt : Option Int
deriving DecidableEq

/-- One room record, as built by `room:create`. -/
structure Room where
  host : Nat
  name : String
  listeners : List Nat
  track : Option Track
  state : PlayState
  createdAt : Int
  aiState : AiState
deriving DecidableEq

/-- Per-connection data: socket id, `socket.data.code`, `socket.data.isHost`,
and the set of socket.io channels the socket has joined. -/
structure Conn where
  sid : Nat
  code : Option String
  isHost : Bool
  joined : List String
deriving DecidableEq

/-- The server's room-related state: the `rooms` table and the connected sockets. -/
structure SrvState where
  rooms : List (String × Room)
  conns : List Conn
deriving DecidableEq

/-- Events the handlers emit to session members. -/
inductive Ev where
  | listenerJoined (id : Nat) (count : Nat)
  | listenerLeft (id : Nat) (count : Nat)
  | roomCount (n : Nat)
  | trackSet (t : Track)
  | aiStateEv (genre mood : Option String) (preset : String) (confidence : Option Int)
  | play (position : Int) (serverPlayAt : Option Int)
  | pause (position : Int)
  | seek (position : Int) (playing : Bool) (serverPlayAt : Option Int)
  | hostLeft
deriving DecidableEq

/-- A socket.io destination: `io.to(code)` / `socket.to(code)` is a channel
(with an optional excluded sender), `io.to(socketId)` is a direct send. -/
inductive Dest where
  | chanExcept (code : String) (excl : Option Nat)
  | direct (sid : Nat)
deriving DecidableEq

/-- Synchronous `cb` replies of `room:create` and `room:join`. -/
inductive Reply where
  | createOk (code : String) (name : String)
  | joinOk (name : String) (track : Option Track) (state : PlayState)
      (ai : AiState) (listenerCount : Nat)
  | errReply (msg : String)
deriving DecidableEq

/-- Result of running one handler. -/
structure HandlerOut where
  st : SrvState
  emits : List (Dest × Ev)
  reply : Option Reply
deriving DecidableEq

/-! ## Association-list and connection helpers -/

/-- Lookup of `rooms[code]` (first match). -/
def findRoom (rooms : List (String × Room)) (code : String) : Option Room :=
  (rooms.find? (fun p => p.1 = code)).map (fun p => p.2)

/-- In-place update of every entry stored under `code` (JS object mutation). -/
def updRoom (rooms : List (String × Room)) (code : String) (f : Room → Room) :
    List (String × Room) :=
  rooms.map (fun p => if p.1 = code then (p.1, f p.2) else p)

/-- JS `delete rooms[code]`. -/
def delRoom (rooms : List (String × Room)) (code : String) : List (String × Room) :=
  rooms.filter (fun p => p.1 ≠ code)

/-- Assignment `rooms[code] = r`: replace in place when the key exists, append otherwise. -/
def setRoomKey (rooms : List (String × Room)) (code : String) (r : Room) :
    List (String × Room) :=
  if (rooms.find? (fun p => p.1 = code)).isSome then
    rooms.map (fun p => if p.1 = code then (p.1, r) else p)
  else
    rooms ++ [(code, r)]

/-- Look up the connection record of socket `s`. -/
def getConn (conns : List Conn) (s : Nat) : Option Conn :=
  conns.find? (fun c => c.sid = s)

/-- Update the connection record of socket `s`. -/
def updConn (conns : List Conn) (s : Nat) (f : Conn → Conn) : List Conn :=
  conns.map (fun c => if c.sid = s then f c else c)

/-- Remove socket `s` from the connection table. -/
def delConn (conns : List Conn) (s : Nat) : List Conn :=
  conns.filter (fun c => c.sid ≠ s)

/-- JS `socket.join(code)`: channel membership is a set, joining twice is a no-op. -/
def chanJoin (joined : List String) (code : String) : List String :=
  if joined.contains code then joined else joined ++ [code]

/-- Resolve a destination to the list of socket ids it delivers to, against a
given server state. -/
def deliveredTo (st : SrvState) : Dest → List Nat
  | Dest.chanExcept code excl =>
      (st.conns.filter
        (fun c => c.joined.contains code && !(excl == some c.sid))).map (fun c => c.sid)
  | Dest.direct sid => if (getConn st.conns sid).isSome then [sid] else []

/-! ## Code generation (`makeCode` and the `room:create` retry loop) -/

/-- Alphabet used by `makeCode`, excluding visually ambiguous characters. -/
def codeAlphabet : List Char := "ABCDEFGHJKLMNPQRSTUVWXYZ23456789".data

/-- One call of `makeCode()`: six characters drawn from `codeAlphabet` at
the given random indices. -/
def makeCode (rand : Fin 6 → Fin 32) : String :=
  String.mk ((List.finRange 6).map (fun i => codeAlphabet.getD (rand i).val 'A'))

/-- The retry loop of `room:create`:
`while (rooms[code] && tries++ < 100) code = makeCode();`.
`gen n` is the result of the `n`-th `makeCode()` call; `fuel` is the number
of regenerations still allowed (initially 100). -/
def pickCodeAux (rooms : List (String × Room)) (gen : Nat → String) :
    Nat → Nat → String → String
  | 0, _, code => code
  | fuel + 1, tries, code =>
    if (findRoom rooms code).isSome then
      pickCodeAux rooms gen fuel (tries + 1) (gen (tries + 1))
    else code

/-- The code chosen by `room:create` for a given generation stream. -/
def pickCode (rooms : List (String × Room)) (gen : Nat → String) : String :=
  pickCodeAux rooms gen 100 0 (gen 0)

/-- JS `name || 'Audio Room'` (empty string is falsy). -/
def nameOr (name dflt : String) : String :=
  if name = "" then dflt else name

/-- The reset AI state `{genre: null, mood: null, preset: 'flat'}`. -/
def flatAi : AiState := { genre := none, mood := none, preset := "flat", confidence := none }

/-- Strip leading and trailing whitespace from a character list (JS `.trim()`). -/
def trimChars (l : List Char) : List Char :=
  ((l.dropWhile Char.isWhitespace).reverse.dropWhile Char.isWhitespace).reverse

/-- Code normalisation done by `room:join`: `(code || '').toUpperCase().trim()`. -/
def normCode (code : String) : String :=
  String.mk (trimChars (code.data.map Char.toUpper))

/-! ## Handlers -/

/-- Room mutation of an accepted `track:set`. -/
def setTrackUpd (t : Track) (r : Room) : Room :=
  { r with
    track := some t
    state := { playing := false, position := 0, serverPlayAt := none }
    aiState := flatAi }

/-- Room mutation of an accepted `ai:state`. -/
def aiUpd (genre mood : Option String) (preset : String) (confidence : Option Int)
    (r : Room) : Room :=
  { r with aiState := { genre, mood, preset, confidence } }

/-- Room mutation of an accepted `audio:play`. -/
def playUpd (position : Int) (serverPlayAt : Option Int) (r : Room) : Room :=
  { r with state := { playing := true, position, serverPlayAt } }

/-- Room mutation of an accepted `audio:pause`. -/
def pauseUpd (position : Int) (r : Room) : Room :=
  { r with state := { playing := false, position, serverPlayAt := none } }

/-- Room mutation of an accepted `audio:seek`. -/
def seekUpd (position : Int) (playing : Bool) (serverPlayAt : Option Int) (r : Room) : Room :=
  { r with state :=
      { playing, position, serverPlayAt := if playing then serverPlayAt else none } }

/-- Room mutation of an accepted `room:join`: push the joiner. -/
def joinUpd (s : Nat) (r : Room) : Room := { r with listeners := r.listeners ++ [s] }

/-- Room mutation of a listener leaving: filter the id out. -/
def leaveUpd (s : Nat) (r : Room) : Room :=
  { r with listeners := r.listeners.filter (fun id => id ≠ s) }

/-- Connection-data mutation of `room:create`: bind the code, mark host, join channel. -/
def createConnUpd (code : String) (c : Conn) : Conn :=
  { c with code := some code, isHost := true, joined := chanJoin c.joined code }

/-- Connection-data mutation of `room:join`: bind the code, mark non-host, join channel. -/
def joinConnUpd (code : String) (c : Conn) : Conn :=
  { c with code := some code, isHost := false, joined := chanJoin c.joined code }

/-- A fresh connection record for socket `s`. -/
def freshConn (s : Nat) : Conn := { sid := s, code := none, isHost := false, joined := [] }

/-- A new socket connects. -/
def connect (st : SrvState) (s : Nat) : SrvState :=
  { st with conns := st.conns ++ [freshConn s] }

/-- Handler for `room:create` from socket `s`. `gen` is the stream of codes
produced by successive `makeCode()` calls, `now` is `Date.now()`. -/
def roomCreate (st : SrvState) (s : Nat) (name : String) (gen : Nat → String)
    (now : Int) : HandlerOut :=
  let code := pickCode st.rooms gen
  let room : Room :=
    { host := s
      name := (nameOr name "Audio Room").take 50
      listeners := []
      track := none
      state := { playing := false, position := 0, serverPlayAt := none }
      createdAt := now
      aiState := flatAi }
  { st :=
      { rooms := setRoomKey st.rooms code room
        conns := updConn st.conns s (createConnUpd code) }
    emits := []
    reply := some (Reply.createOk code room.name) }

/-- Handler for `room:join` from socket `s` with raw payload code `codeRaw`. -/
def roomJoin (st : SrvState) (s : Nat) (codeRaw : String) : HandlerOut :=
  let code := normCode codeRaw
  match findRoom st.rooms code with
  | none => { st := st, emits := [], reply := some (Reply.errReply "Room not found. Check the code.") }
  | some room =>
    if room.listeners.length ≥ 50 then
      { st := st, emits := [], reply := some (Reply.errReply "Room is full (max 50).") }
    else
      let n := room.listeners.length + 1
      { st :=
          { rooms := updRoom st.rooms code (joinUpd s)
            conns := updConn st.conns s (joinConnUpd code) }
        emits :=
          [ (Dest.direct room.host, Ev.listenerJoined s n),
            (Dest.chanExcept code none, Ev.roomCount n) ]
        reply := some (Reply.joinOk room.name room.track room.state room.aiState n) }

/-- The host guard shared by `track:set`, `ai:state` and the `audio:*`
handlers: read `socket.data.code`, look the room up, and require
`room.host === socket.id`; return the code and room on success. -/
def hostGuard (st : SrvState) (s : Nat) : Option (String × Room) :=
  (getConn st.conns s).bind (fun c =>
    c.code.bind (fun code =>
      (findRoom st.rooms code).bind (fun room =>
        if room.host = s then some (code, room) else none)))

/-- The shared shape of the guarded mutation handlers (`track:set`, `ai:state`,
`audio:play`, `audio:pause`, `audio:seek`): apply the host guard; on failure
return silently with no state change, no emit, and no reply; on success apply
the room mutation `f` and broadcast `ev` to the room channel excluding the
sender. -/
def guardedMut (st : SrvState) (s : Nat) (f : Room → Room) (ev : Ev) : HandlerOut :=
  match hostGuard st s with
  | none => { st := st, emits := [], reply := none }
  | some (code, _) =>
    { st := { st with rooms := updRoom st.rooms code f }
      emits := [ (Dest.chanExcept code (some s), ev) ]
      reply := none }

/-- Handler for `track:set` from socket `s`. -/
def trackSet (st : SrvState) (s : Nat) (t : Track) : HandlerOut :=
  guardedMut st s (setTrackUpd t) (Ev.trackSet t)

/-- Handler for `ai:state` from socket `s`. -/
def aiStateSet (st : SrvState) (s : Nat) (genre mood : Option String) (preset : String)
    (confidence : Option Int) : HandlerOut :=
  guardedMut st s (aiUpd genre mood preset confidence)
    (Ev.aiStateEv genre mood preset confidence)

/-- Handler for `audio:play` from socket `s`. -/
def audioPlay (st : SrvState) (s : Nat) (position : Int) (serverPlayAt : Option Int) :
    HandlerOut :=
  guardedMut st s (playUpd position serverPlayAt) (Ev.play position serverPlayAt)

/-- Handler for `audio:pause` from socket `s`. -/
def audioPause (st : SrvState) (s : Nat) (position : Int) : HandlerOut :=
  guardedMut st s (pauseUpd position) (Ev.pause position)

/-- Handler for `audio:seek` from socket `s`. -/
def audioSeek (st : SrvState) (s : Nat) (position : Int) (playing : Bool)
    (serverPlayAt : Option Int) : HandlerOut :=
  guardedMut st s (seekUpd position playing serverPlayAt)
    (Ev.seek position playing serverPlayAt)

/-- Handler for `disconnect` of socket `s`. socket.io removes the socket
from its channels and from the connection table before the user handler
runs, so emitted broadcasts never reach `s` itself. -/
def disconnect (st : SrvState) (s : Nat) : HandlerOut :=
  let dataCode := (getConn st.conns s).bind (fun c => c.code)
  let wasHost := ((getConn st.conns s).map (fun c => c.isHost)).getD false
  let conns' := delConn st.conns s
  match dataCode with
  | none => { st := { st with conns := conns' }, emits := [], reply := none }
  | some code =>
    match findRoom st.rooms code with
    | none => { st := { st with conns := conns' }, emits := [], reply := none }
    | some room =>
      if wasHost then
        { st := { rooms := delRoom st.rooms code, conns := conns' }
          emits := [ (Dest.chanExcept code none, Ev.hostLeft) ]
          reply := none }
      else
        let keep := room.listeners.filter (fun id => id ≠ s)
        { st :=
            { rooms := updRoom st.rooms code (leaveUpd s)
              conns := conns' }
          emits :=
            [ (Dest.direct room.host, Ev.listenerLeft s keep.length),
              (Dest.chanExcept code none, Ev.roomCount keep.length) ]
          reply := none }

/-- Room time-to-live used by the GC sweep: six hours in milliseconds. -/
def ROOM_TTL : Int := 6 * 60 * 60 * 1000

/-- The room-table part of the periodic GC sweep: keep exactly the rooms
with `now - room.createdAt <= ROOM_TTL`. -/
def sweepRooms (now : Int) (rooms : List (String × Room)) : List (String × Room) :=
  rooms.filter (fun p => !(now - p.2.createdAt > ROOM_TTL : Bool))

/-- The periodic GC sweep (`setInterval` body): delete every room whose
`createdAt` is older than `now - ROOM_TTL`, emitting `room:host_left` to
each deleted room's channel. -/
def sweep (st : SrvState) (now : Int) : HandlerOut :=
  { st := { st with rooms := sweepRooms now st.rooms }
    emits := (st.rooms.filter (fun p => (now - p.2.createdAt > ROOM_TTL : Bool))).map
      (fun p => (Dest.chanExcept p.1 none, Ev.hostLeft))
    reply := none }

/-! ## Basic lemmas about the table and delivery helpers -/

theorem findRoom_nil (c : String) : findRoom [] c = none := rfl

theorem findRoom_cons (p : String × Room) (l : List (String × Room)) (c : String) :
    findRoom (p :: l) c = if p.1 = c then some p.2 else findRoom l c := by
  by_cases h : p.1 = c
  · simp [findRoom, List.find?_cons_of_pos, h]
  · simp [findRoom, List.find?_cons_of_neg, h]

theorem findRoom_eq_none_iff (rooms : List (String × Room)) (c : String) :
    findRoom rooms c = none ↔ ∀ p ∈ rooms, p.1 ≠ c := by
  simp [findRoom, List.find?_eq_none]

theorem findRoom_mem {rooms : List (String × Room)} {c : String} {r : Room}
    (h : findRoom rooms c = some r) : (c, r) ∈ rooms := by
  unfold findRoom at h
  cases hf : rooms.find? (fun p => p.1 = c) with
  | none => rw [hf] at h; exact absurd h (by simp)
  | some p =>
    rw [hf] at h
    have hp : p.1 = c := by simpa using List.find?_some hf
    have hr : p.2 = r := by simpa using h
    have hm : p ∈ rooms := List.mem_of_find?_eq_some hf
    have hpe : p = (c, r) := Prod.ext hp hr
    exact hpe ▸ hm

theorem updRoom_cons (p : String × Room) (l : List (String × Room)) (k : String)
    (f : Room → Room) :
    updRoom (p :: l) k f = (if p.1 = k then (p.1, f p.2) else p) :: updRoom l k f := rfl

theorem findRoom_updRoom (rooms : List (String × Room)) (k : String) (f : Room → Room)
    (c : String) :
    findRoom (updRoom rooms k f) c =
      if c = k then (findRoom rooms c).map f else findRoom rooms c := by
  induction rooms with
  | nil => simp [updRoom, findRoom_nil]
  | cons p rest ih =>
    rw [updRoom_cons]
    by_cases hpk : p.1 = k
    · rw [if_pos hpk]
      by_cases hpc : p.1 = c
      · have hck : c = k := hpc ▸ hpk
        rw [findRoom_cons, findRoom_cons, if_pos hck]
        show (if p.1 = c then some (f p.2) else findRoom (updRoom rest k f) c) = _
        rw [if_pos hpc, if_pos hpc]
        rfl
      · rw [findRoom_cons, findRoom_cons]
        show (if p.1 = c then some (f p.2) else findRoom (updRoom rest k f) c) = _
        rw [if_neg hpc, if_neg hpc, ih]
    · rw [if_neg hpk]
      by_cases hpc : p.1 = c
      · have hck : ¬ c = k := fun h => hpk (hpc ▸ h)
        rw [findRoom_cons, if_pos hpc, if_neg hck, findRoom_cons, if_pos hpc]
      · rw [findRoom_cons, if_neg hpc, ih]
        by_cases hck : c = k
        · rw [if_pos hck, if_pos hck, findRoom_cons, if_neg hpc]
        · rw [if_neg hck, if_neg hck, findRoom_cons, if_neg hpc]

theorem delRoom_cons (p : String × Room) (l : List (String × Room)) (k : String) :
    delRoom (p :: l) k = if p.1 = k then delRoom l k else p :: delRoom l k := by
  by_cases h : p.1 = k <;> simp [delRoom, List.filter_cons, h]

theorem findRoom_delRoom (rooms : List (String × Room)) (k c : String) :
    findRoom (delRoom rooms k) c = if c = k then none else findRoom rooms c := by
  induction rooms with
  | nil => simp [delRoom, findRoom_nil]
  | cons p rest ih =>
    rw [delRoom_cons]
    by_cases hpk : p.1 = k
    · rw [if_pos hpk, ih]
      by_cases hck : c = k
      · rw [if_pos hck, if_pos hck]
      · have hpc : ¬ p.1 = c := fun h => hck (by rw [← h, hpk])
        rw [if_neg hck, if_neg hck, findRoom_cons, if_neg hpc]
    · rw [if_neg hpk, findRoom_cons]
      by_cases hpc : p.1 = c
      · have hck : ¬ c = k := fun h => hpk (hpc ▸ h)
        rw [if_pos hpc, if_neg hck, findRoom_cons, if_pos hpc]
      · rw [if_neg hpc, ih]
        by_cases hck : c = k
        · rw [if_pos hck, if_pos hck]
        · rw [if_neg hck, if_neg hck, findRoom_cons, if_neg hpc]

theorem findRoom_setRoomKey (rooms : List (String × Room)) (k : String) (r : Room)
    (c : String) :
    findRoom (setRoomKey rooms k r) c = if c = k then some r else findRoom rooms c := by
  unfold setRoomKey
  by_cases hpres : (rooms.find? (fun p => p.1 = k)).isSome
  · rw [if_pos hpres]
    have h1 : findRoom (updRoom rooms k (fun _ => r)) c =
        if c = k then (findRoom rooms c).map (fun _ => r) else findRoom rooms c :=
      findRoom_updRoom rooms k (fun _ => r) c
    have h2 : updRoom rooms k (fun _ => r) =
        rooms.map (fun p => if p.1 = k then (p.1, r) else p) := rfl
    rw [h2] at h1
    rw [h1]
    by_cases hck : c = k
    · subst hck
      rw [if_pos rfl, if_pos rfl]
      obtain ⟨p, hp⟩ := Option.isSome_iff_exists.mp hpres
      unfold findRoom
      rw [hp]
      simp
    · rw [if_neg hck, if_neg hck]
  · rw [if_neg hpres]
    have hnone : rooms.find? (fun p => p.1 = k) = none :=
      Option.not_isSome_iff_eq_none.mp hpres
    unfold findRoom
    rw [List.find?_append]
    by_cases hck : c = k
    · subst hck
      rw [hnone]
      simp
    · have hlast : List.find? (fun p => decide (p.1 = c)) [(k, r)] = none := by
        rw [show ([(k, r)] : List (String × Room)) = (k, r) :: [] from rfl]
        rw [List.find?_cons_of_neg _ (by simpa using fun h => hck (Eq.symm h))]
        rfl
      rw [hlast]
      simp [if_neg hck]

theorem keys_updRoom (rooms : List (String × Room)) (k : String) (f : Room → Room) :
    (updRoom rooms k f).map Prod.fst = rooms.map Prod.fst := by
  induction rooms with
  | nil => rfl
  | cons p rest ih =>
    by_cases hpk : p.1 = k <;> simp [updRoom, hpk] at ih ⊢ <;> exact ih

theorem findRoom_filter (q : String × Room → Bool) (rooms : List (String × Room))
    (hnd : (rooms.map Prod.fst).Nodup) (c : String) :
    findRoom (rooms.filter q) c =
      match findRoom rooms c with
      | some r => if q (c, r) then some r else none
      | none => none := by
  induction rooms with
  | nil => simp [findRoom_nil]
  | cons p rest ih =>
    have hnd' : (rest.map Prod.fst).Nodup := (List.nodup_cons.mp hnd).2
    have hns : p.1 ∉ rest.map Prod.fst := (List.nodup_cons.mp hnd).1
    by_cases hpc : p.1 = c
    · subst hpc
      have hrest : findRoom rest p.1 = none := by
        rw [findRoom_eq_none_iff]
        intro x hx heq
        exact hns (heq ▸ List.mem_map_of_mem Prod.fst hx)
      have hfrest : findRoom (rest.filter q) p.1 = none := by
        rw [findRoom_eq_none_iff]
        intro x hx heq
        have hx' : x ∈ rest := List.mem_of_mem_filter hx
        exact (findRoom_eq_none_iff rest p.1).mp hrest x hx' heq
      by_cases hq : q p
      · rw [List.filter_cons, if_pos hq, findRoom_cons, if_pos rfl, findRoom_cons,
          if_pos rfl]
        cases p with
        | mk a b => simpa using hq
      · rw [List.filter_cons, if_neg (by simpa using hq), hfrest, findRoom_cons,
          if_pos rfl]
        cases p with
        | mk a b =>
          have hq' : q (a, b) = false := by simpa using hq
          simp [hq']
    · simp only [List.filter_cons]
      by_cases hq : q p
      · simp [hq, findRoom_cons, hpc, ih hnd']
      · simp [hq, findRoom_cons, hpc, ih hnd']

/-! ## Delivery, connection, guard and code-generation lemmas -/

theorem not_mem_deliveredTo_self (st : SrvState) (code : String) (s : Nat) :
    s ∉ deliveredTo st (Dest.chanExcept code (some s)) := by
  intro hmem
  simp only [deliveredTo, List.mem_map, List.mem_filter] at hmem
  obtain ⟨cn, ⟨_, hcond⟩, hsid⟩ := hmem
  rw [Bool.and_eq_true] at hcond
  have := hcond.2
  rw [hsid] at this
  simp at this

theorem mem_deliveredTo_chan {st : SrvState} {code : String} {excl : Option Nat} {l : Nat} :
    l ∈ deliveredTo st (Dest.chanExcept code excl) ↔
      ∃ cn, cn ∈ st.conns ∧ cn.sid = l ∧ cn.joined.contains code = true ∧ excl ≠ some l := by
  simp only [deliveredTo, List.mem_map, List.mem_filter]
  constructor
  · rintro ⟨cn, ⟨hin, hcond⟩, hsid⟩
    rw [Bool.and_eq_true] at hcond
    refine ⟨cn, hin, hsid, hcond.1, ?_⟩
    intro he
    rw [he, hsid] at hcond
    simp at hcond
  · rintro ⟨cn, hin, hsid, hjoin, hne⟩
    refine ⟨cn, ⟨hin, ?_⟩, hsid⟩
    rw [Bool.and_eq_true]
    refine ⟨hjoin, ?_⟩
    rw [hsid]
    simpa using hne

theorem nodup_deliveredTo_chan (st : SrvState) (code : String) (excl : Option Nat)
    (hnd : (st.conns.map Conn.sid).Nodup) :
    (deliveredTo st (Dest.chanExcept code excl)).Nodup := by
  unfold deliveredTo
  exact hnd.sublist (List.Sublist.map Conn.sid (List.filter_sublist st.conns))

theorem count_deliveredTo_chan (st : SrvState) (code : String) (excl : Option Nat)
    (l : Nat) (hnd : (st.conns.map Conn.sid).Nodup)
    (hmem : l ∈ deliveredTo st (Dest.chanExcept code excl)) :
    (deliveredTo st (Dest.chanExcept code excl)).count l = 1 :=
  List.count_eq_one_of_mem (nodup_deliveredTo_chan st code excl hnd) hmem

theorem delConn_cons (cn : Conn) (rest : List Conn) (s : Nat) :
    delConn (cn :: rest) s = if cn.sid = s then delConn rest s else cn :: delConn rest s := by
  by_cases h : cn.sid = s <;> simp [delConn, List.filter_cons, h]

theorem getConn_cons (cn : Conn) (rest : List Conn) (l : Nat) :
    getConn (cn :: rest) l = if cn.sid = l then some cn else getConn rest l := by
  by_cases h : cn.sid = l
  · simp [getConn, List.find?_cons_of_pos, h]
  · simp [getConn, List.find?_cons_of_neg, h]

theorem getConn_delConn_ne (conns : List Conn) (s l : Nat) (h : l ≠ s) :
    getConn (delConn conns s) l = getConn conns l := by
  induction conns with
  | nil => rfl
  | cons cn rest ih =>
    rw [delConn_cons]
    by_cases hcs : cn.sid = s
    · rw [if_pos hcs, ih, getConn_cons, if_neg (fun he => h (by rw [← he, hcs]))]
    · rw [if_neg hcs, getConn_cons, getConn_cons]
      by_cases hcl : cn.sid = l
      · rw [if_pos hcl, if_pos hcl]
      · rw [if_neg hcl, if_neg hcl, ih]

theorem mem_delConn (conns : List Conn) (s : Nat) {cn : Conn}
    (h : cn ∈ conns) (hne : cn.sid ≠ s) : cn ∈ delConn conns s := by
  rw [delConn, List.mem_filter]
  exact ⟨h, by simpa using hne⟩

theorem getConn_mem {conns : List Conn} {s : Nat} {cn : Conn}
    (h : getConn conns s = some cn) : cn ∈ conns ∧ cn.sid = s := by
  refine ⟨List.mem_of_find?_eq_some h, ?_⟩
  simpa using List.find?_some h

theorem hostGuard_spec {st : SrvState} {s : Nat} {code : String} {room : Room}
    (h : hostGuard st s = some (code, room)) :
    findRoom st.rooms code = some room ∧ room.host = s ∧
      ∃ cn, getConn st.conns s = some cn ∧ cn.code = some code := by
  unfold hostGuard at h
  cases h1 : getConn st.conns s with
  | none => rw [h1] at h; exact absurd h (by simp)
  | some cn =>
    rw [h1, Option.some_bind] at h
    cases h2 : cn.code with
    | none => rw [h2] at h; exact absurd h (by simp)
    | some cd =>
      rw [h2, Option.some_bind] at h
      cases h3 : findRoom st.rooms cd with
      | none => rw [h3] at h; exact absurd h (by simp)
      | some rm =>
        rw [h3, Option.some_bind] at h
        by_cases h4 : rm.host = s
        · rw [if_pos h4] at h
          have hcd : cd = code := by simpa using congrArg (fun o => o.map Prod.fst) h
          have hrm : rm = room := by simpa using congrArg (fun o => o.map Prod.snd) h
          subst hcd; subst hrm
          exact ⟨h3, h4, cn, rfl, h2⟩
        · rw [if_neg h4] at h
          exact absurd h (by simp)

theorem hostGuard_eq_some {st : SrvState} {s : Nat} {cn : Conn} {code : String}
    {room : Room} (h1 : getConn st.conns s = some cn) (h2 : cn.code = some code)
    (h3 : findRoom st.rooms code = some room) (h4 : room.host = s) :
    hostGuard st s = some (code, room) := by
  unfold hostGuard
  rw [h1, Option.some_bind, h2, Option.some_bind, h3, Option.some_bind, if_pos h4]

theorem pickCodeAux_fresh (rooms : List (String × Room)) (gen : Nat → String) :
    ∀ (fuel t : Nat), (∃ i, t ≤ i ∧ i ≤ t + fuel ∧ findRoom rooms (gen i) = none) →
      findRoom rooms (pickCodeAux rooms gen fuel t (gen t)) = none := by
  intro fuel
  induction fuel with
  | zero =>
    rintro t ⟨i, h1, h2, h3⟩
    have : i = t := Nat.le_antisymm (by omega) h1
    subst this
    simpa [pickCodeAux] using h3
  | succ fuel ih =>
    rintro t ⟨i, h1, h2, h3⟩
    rw [pickCodeAux]
    by_cases hc : (findRoom rooms (gen t)).isSome
    · rw [if_pos hc]
      have hne : i ≠ t := by
        intro he
        rw [← he, h3] at hc
        exact absurd hc (by simp)
      exact ih (t + 1) ⟨i, by omega, by omega, h3⟩
    · rw [if_neg hc]
      exact Option.not_isSome_iff_eq_none.mp hc

/-- If any of the 101 generated codes is fresh, the code `room:create`
registers under is fresh. -/
theorem pickCode_fresh (rooms : List (String × Room)) (gen : Nat → String)
    (h : ∃ i, i ≤ 100 ∧ findRoom rooms (gen i) = none) :
    findRoom rooms (pickCode rooms gen) = none := by
  obtain ⟨i, h1, h2⟩ := h
  exact pickCodeAux_fresh rooms gen 100 0 ⟨i, Nat.zero_le i, by omega, h2⟩

/-! ## Operational steps, reachability, and the host-membership invariant -/

/-- One server-level event: a connection arriving, a handled message, or a GC tick. -/
inductive Step where
  | connect (s : Nat)
  | create (s : Nat) (name : String) (gen : Nat → String) (now : Int)
  | join (s : Nat) (code : String)
  | setTrack (s : Nat) (t : Track)
  | aiSet (s : Nat) (genre mood : Option String) (preset : String) (confidence : Option Int)
  | play (s : Nat) (position : Int) (spa : Option Int)
  | pause (s : Nat) (position : Int)
  | seek (s : Nat) (position : Int) (playing : Bool) (spa : Option Int)
  | disc (s : Nat)
  | gc (now : Int)

/-- State transition of one step (the handler's state component). -/
def applyStep (st : SrvState) : Step → SrvState
  | Step.connect s => connect st s
  | Step.create s name gen now => (roomCreate st s name gen now).st
  | Step.join s code => (roomJoin st s code).st
  | Step.setTrack s t => (trackSet st s t).st
  | Step.aiSet s g m p cf => (aiStateSet st s g m p cf).st
  | Step.play s pos spa => (audioPlay st s pos spa).st
  | Step.pause s pos => (audioPause st s pos).st
  | Step.seek s pos pl spa => (audioSeek st s pos pl spa).st
  | Step.disc s => (disconnect st s).st
  | Step.gc now => (sweep st now).st

/-- Run a list of steps from a state. -/
def run (st : SrvState) : List Step → SrvState
  | [] => st
  | step :: rest => run (applyStep st step) rest

/-- A step is not a self-join in the given state: a `room:join` sender is not
the recorded host of the room the join resolves to. Other steps are unconstrained. -/
def stepOk (st : SrvState) : Step → Prop
  | Step.join s code => ∀ r, findRoom st.rooms (normCode code) = some r → r.host ≠ s
  | _ => True

/-- A trace contains no `room:join` whose sender is the recorded host of the
room the join resolves to at that moment. -/
def selfJoinFree : SrvState → List Step → Prop
  | _, [] => True
  | st, step :: rest => stepOk st step ∧ selfJoinFree (applyStep st step) rest

/-- Room-table well-formedness: unique codes, and no room's host appears in
its own listeners list. -/
def goodRooms (st : SrvState) : Prop :=
  (st.rooms.map Prod.fst).Nodup ∧ ∀ p ∈ st.rooms, p.2.host ∉ p.2.listeners

theorem findRoom_of_mem_nodup {rooms : List (String × Room)}
    (hnd : (rooms.map Prod.fst).Nodup) {p : String × Room} (hp : p ∈ rooms) :
    findRoom rooms p.1 = some p.2 := by
  induction rooms with
  | nil => cases hp
  | cons q rest ih =>
    rcases List.mem_cons.mp hp with he | hm
    · subst he; rw [findRoom_cons, if_pos rfl]
    · have hnd' := (List.nodup_cons.mp hnd).2
      have hqn := (List.nodup_cons.mp hnd).1
      have hne : ¬ q.1 = p.1 := fun he => hqn (he ▸ List.mem_map_of_mem Prod.fst hm)
      rw [findRoom_cons, if_neg hne]
      exact ih hnd' hm

theorem nodupKeys_updRoom (rooms : List (String × Room)) (k : String) (f : Room → Room)
    (h : (rooms.map Prod.fst).Nodup) : ((updRoom rooms k f).map Prod.fst).Nodup := by
  rw [keys_updRoom]; exact h

theorem nodupKeys_setRoomKey (rooms : List (String × Room)) (k : String) (r : Room)
    (h : (rooms.map Prod.fst).Nodup) : ((setRoomKey rooms k r).map Prod.fst).Nodup := by
  unfold setRoomKey
  by_cases hp : (rooms.find? (fun p => p.1 = k)).isSome
  · rw [if_pos hp]
    have he : (rooms.map (fun p => if p.1 = k then (p.1, r) else p)).map Prod.fst
        = rooms.map Prod.fst := keys_updRoom rooms k (fun _ => r)
    rw [he]; exact h
  · rw [if_neg hp, List.map_append]
    have hnone := Option.not_isSome_iff_eq_none.mp hp
    have hk : k ∉ rooms.map Prod.fst := by
      intro hmem
      obtain ⟨p, hpmem, hpk⟩ := List.mem_map.mp hmem
      have := List.find?_eq_none.mp hnone p hpmem
      simp at this
      exact this hpk
    rw [List.nodup_append]
    refine ⟨h, List.nodup_singleton k, ?_⟩
    intro a ha hmem
    have hak : a = k := by simpa using hmem
    exact hk (hak ▸ ha)

theorem mem_setRoomKey {rooms : List (String × Room)} {k : String} {r : Room}
    {p : String × Room} (hp : p ∈ setRoomKey rooms k r) : p ∈ rooms ∨ p.2 = r := by
  unfold setRoomKey at hp
  by_cases hpres : (rooms.find? (fun p => p.1 = k)).isSome
  · rw [if_pos hpres] at hp
    obtain ⟨q, hq, he⟩ := List.mem_map.mp hp
    by_cases hqk : q.1 = k
    · rw [if_pos hqk] at he; right; rw [← he]
    · rw [if_neg hqk] at he; left; rw [← he]; exact hq
  · rw [if_neg hpres] at hp
    rcases List.mem_append.mp hp with hm | hm
    · left; exact hm
    · right; simp at hm; rw [hm]

theorem hostNotIn_updRoom (rooms : List (String × Room)) (k : String) (f : Room → Room)
    (hpres : ∀ r : Room, (f r).host = r.host ∧ (f r).listeners = r.listeners)
    (h : ∀ p ∈ rooms, p.2.host ∉ p.2.listeners) :
    ∀ p ∈ updRoom rooms k f, p.2.host ∉ p.2.listeners := by
  intro p' hp'
  obtain ⟨p, hp, he⟩ := List.mem_map.mp hp'
  by_cases hk : p.1 = k
  · rw [if_pos hk] at he
    rw [← he]
    show (f p.2).host ∉ (f p.2).listeners
    rw [(hpres p.2).1, (hpres p.2).2]
    exact h p hp
  · rw [if_neg hk] at he
    rw [← he]
    exact h p hp

theorem hostNotIn_updRoom_append (rooms : List (String × Room)) (k : String) (s : Nat)
    (hnd : (rooms.map Prod.fst).Nodup)
    (hhost : ∀ r, findRoom rooms k = some r → r.host ≠ s)
    (h : ∀ p ∈ rooms, p.2.host ∉ p.2.listeners) :
    ∀ p ∈ updRoom rooms k (joinUpd s), p.2.host ∉ p.2.listeners := by
  intro p' hp'
  obtain ⟨p, hp, he⟩ := List.mem_map.mp hp'
  by_cases hk : p.1 = k
  · have hfr : findRoom rooms k = some p.2 := hk ▸ findRoom_of_mem_nodup hnd hp
    have hne := hhost p.2 hfr
    rw [if_pos hk] at he
    rw [← he]
    intro hmem
    rcases List.mem_append.mp hmem with hm | hm
    · exact h p hp hm
    · simp at hm
      exact hne hm
  · rw [if_neg hk] at he
    rw [← he]
    exact h p hp

theorem hostNotIn_filterListeners (rooms : List (String × Room)) (k : String) (s : Nat)
    (h : ∀ p ∈ rooms, p.2.host ∉ p.2.listeners) :
    ∀ p ∈ updRoom rooms k (leaveUpd s), p.2.host ∉ p.2.listeners := by
  intro p' hp'
  obtain ⟨p, hp, he⟩ := List.mem_map.mp hp'
  by_cases hk : p.1 = k
  · rw [if_pos hk] at he
    rw [← he]
    intro hmem
    exact h p hp (List.mem_of_mem_filter hmem)
  · rw [if_neg hk] at he
    rw [← he]
    exact h p hp

/-- A guarded mutation whose room function preserves host and listeners
preserves room-table well-formedness. -/
theorem goodRooms_guardedMut (st : SrvState) (s : Nat) (f : Room → Room) (ev : Ev)
    (hpres : ∀ r : Room, (f r).host = r.host ∧ (f r).listeners = r.listeners)
    (hg : goodRooms st) : goodRooms (guardedMut st s f ev).st := by
  obtain ⟨hnd, hinv⟩ := hg
  unfold guardedMut
  cases hgd : hostGuard st s with
  | none => exact ⟨hnd, hinv⟩
  | some p =>
    obtain ⟨code, room⟩ := p
    dsimp only
    exact ⟨nodupKeys_updRoom st.rooms code f hnd,
      hostNotIn_updRoom st.rooms code f hpres hinv⟩

/-- One step preserves room-table well-formedness, provided a `join` step is
not a self-join in the current state. -/
theorem goodRooms_applyStep (st : SrvState) (step : Step) (hg : goodRooms st)
    (hok : stepOk st step) : goodRooms (applyStep st step) := by
  obtain ⟨hnd, hinv⟩ := hg
  cases step with
  | connect s => exact ⟨hnd, hinv⟩
  | create s name gen now =>
    refine ⟨nodupKeys_setRoomKey _ _ _ hnd, ?_⟩
    intro p hp
    rcases mem_setRoomKey hp with hm | hm
    · exact hinv p hm
    · rw [hm]; simp
  | join s code =>
    show goodRooms (roomJoin st s code).st
    unfold roomJoin
    dsimp only
    cases hfind : findRoom st.rooms (normCode code) with
    | none => exact ⟨hnd, hinv⟩
    | some room =>
      dsimp only
      by_cases hcap : room.listeners.length ≥ 50
      · rw [if_pos hcap]
        exact ⟨hnd, hinv⟩
      · rw [if_neg hcap]
        dsimp only
        refine ⟨nodupKeys_updRoom _ _ _ hnd, ?_⟩
        exact hostNotIn_updRoom_append st.rooms (normCode code) s hnd
          (fun r hr => hok r hr) hinv
  | setTrack s t =>
    exact goodRooms_guardedMut st s (setTrackUpd t) (Ev.trackSet t)
      (fun r => ⟨rfl, rfl⟩) ⟨hnd, hinv⟩
  | aiSet s g m pr cf =>
    exact goodRooms_guardedMut st s (aiUpd g m pr cf) (Ev.aiStateEv g m pr cf)
      (fun r => ⟨rfl, rfl⟩) ⟨hnd, hinv⟩
  | play s pos spa =>
    exact goodRooms_guardedMut st s (playUpd pos spa) (Ev.play pos spa)
      (fun r => ⟨rfl, rfl⟩) ⟨hnd, hinv⟩
  | pause s pos =>
    exact goodRooms_guardedMut st s (pauseUpd pos) (Ev.pause pos)
      (fun r => ⟨rfl, rfl⟩) ⟨hnd, hinv⟩
  | seek s pos pl spa =>
    exact goodRooms_guardedMut st s (seekUpd pos pl spa) (Ev.seek pos pl spa)
      (fun r => ⟨rfl, rfl⟩) ⟨hnd, hinv⟩
  | disc s =>
    show goodRooms (disconnect st s).st
    unfold disconnect
    dsimp only
    cases hdc : (getConn st.conns s).bind (fun c => c.code) with
    | none => exact ⟨hnd, hinv⟩
    | some code =>
      dsimp only
      cases hfind : findRoom st.rooms code with
      | none => exact ⟨hnd, hinv⟩
      | some room =>
        dsimp only
        by_cases hwh : (((getConn st.conns s).map (fun c => c.isHost)).getD false) = true
        · rw [if_pos hwh]
          dsimp only
          refine ⟨?_, ?_⟩
          · exact hnd.sublist (List.Sublist.map Prod.fst (List.filter_sublist st.rooms))
          · intro p hp
            exact hinv p (List.mem_of_mem_filter hp)
        · rw [if_neg hwh]
          dsimp only
          exact ⟨nodupKeys_updRoom _ _ _ hnd, hostNotIn_filterListeners _ _ _ hinv⟩
  | gc now =>
    refine ⟨?_, ?_⟩
    · exact hnd.sublist (List.Sublist.map Prod.fst (List.filter_sublist st.rooms))
    · intro p hp
      exact hinv p (List.mem_of_mem_filter hp)

/-- Any self-join-free trace preserves room-table well-formedness. -/
theorem goodRooms_run (steps : List Step) (st : SrvState) (hg : goodRooms st)
    (hfree : selfJoinFree st steps) : goodRooms (run st steps) := by
  induction steps generalizing st with
  | nil => exact hg
  | cons step rest ih =>
    rw [selfJoinFree] at hfree
    rw [run]
    exact ih (applyStep st step) (goodRooms_applyStep st step hg hfree.1) hfree.2

/-! ## Further support lemmas for the claim theorems -/

theorem getConn_delConn_self (conns : List Conn) (s : Nat) :
    getConn (delConn conns s) s = none := by
  unfold getConn
  rw [List.find?_eq_none]
  intro cn hcn
  have := (List.mem_filter.mp hcn).2
  simp at this ⊢
  exact this

theorem mem_updConn {conns : List Conn} {s : Nat} {cn : Conn} (f : Conn → Conn)
    (h : cn ∈ conns) (hs : cn.sid = s) : f cn ∈ updConn conns s f := by
  unfold updConn
  have he : f cn = (fun c => if c.sid = s then f c else c) cn := by
    show f cn = if cn.sid = s then f cn else cn
    rw [if_pos hs]
  rw [he]
  exact List.mem_map_of_mem _ h

theorem sid_map_updConn (conns : List Conn) (s : Nat) (f : Conn → Conn)
    (hf : ∀ c : Conn, (f c).sid = c.sid) :
    (updConn conns s f).map Conn.sid = conns.map Conn.sid := by
  induction conns with
  | nil => rfl
  | cons cn rest ih =>
    show (if cn.sid = s then f cn else cn).sid :: (updConn rest s f).map Conn.sid = _
    by_cases h : cn.sid = s
    · rw [if_pos h, hf cn, ih, List.map_cons]
    · rw [if_neg h, ih, List.map_cons]

theorem chanJoin_contains (joined : List String) (code : String) :
    (chanJoin joined code).contains code = true := by
  unfold chanJoin
  by_cases h : joined.contains code
  · rw [if_pos h]; exact h
  · rw [if_neg h]
    simp

/-- The frame property of a rejected or differently-targeted guarded mutation:
every room whose recorded host is not the sender is untouched, nothing is
delivered to the sender, and there is no reply. -/
theorem guardedMut_frame (st : SrvState) (s : Nat) (c : String) (r : Room)
    (hfind : findRoom st.rooms c = some r) (hnh : r.host ≠ s)
    (f : Room → Room) (ev : Ev) :
    findRoom (guardedMut st s f ev).st.rooms c = some r ∧
    (guardedMut st s f ev).reply = none ∧
    ∀ de ∈ (guardedMut st s f ev).emits, s ∉ deliveredTo (guardedMut st s f ev).st de.1 := by
  unfold guardedMut
  cases hg : hostGuard st s with
  | none =>
    refine ⟨hfind, rfl, ?_⟩
    intro de hde
    simp at hde
  | some p =>
    obtain ⟨code, room⟩ := p
    obtain ⟨hfr, hhost, _⟩ := hostGuard_spec hg
    have hcc : c ≠ code := by
      intro he
      rw [he, hfr] at hfind
      have : room = r := by simpa using hfind
      exact hnh (by rw [← this, hhost])
    dsimp only
    refine ⟨?_, rfl, ?_⟩
    · rw [findRoom_updRoom, if_neg hcc, hfind]
    · intro de hde
      simp only [List.mem_singleton] at hde
      subst hde
      exact not_mem_deliveredTo_self _ code s

/-- The effect of an accepted guarded mutation: the bound room is updated by
`f` and the single event is broadcast to the room channel excluding the sender. -/
theorem guardedMut_applies (st : SrvState) (s : Nat) (cn : Conn) (c : String) (r : Room)
    (h1 : getConn st.conns s = some cn) (h2 : cn.code = some c)
    (h3 : findRoom st.rooms c = some r) (h4 : r.host = s) (f : Room → Room) (ev : Ev) :
    (guardedMut st s f ev).st.rooms = updRoom st.rooms c f ∧
    (guardedMut st s f ev).st.conns = st.conns ∧
    (guardedMut st s f ev).emits = [ (Dest.chanExcept c (some s), ev) ] ∧
    (guardedMut st s f ev).reply = none := by
  unfold guardedMut
  rw [hostGuard_eq_some h1 h2 h3 h4]
  exact ⟨rfl, rfl, rfl, rfl⟩

/-- The state of the bound room after an accepted guarded mutation. -/
theorem guardedMut_room (st : SrvState) (s : Nat) (cn : Conn) (c : String) (r : Room)
    (h1 : getConn st.conns s = some cn) (h2 : cn.code = some c)
    (h3 : findRoom st.rooms c = some r) (h4 : r.host = s) (f : Room → Room) (ev : Ev) :
    findRoom (guardedMut st s f ev).st.rooms c = some (f r) := by
  rw [(guardedMut_applies st s cn c r h1 h2 h3 h4 f ev).1, findRoom_updRoom, if_pos rfl, h3]
  rfl

/-! ## Concrete fixture states -/

/-- A freshly created room hosted by socket 0. -/
def room0 : Room :=
  { host := 0, name := "Audio Room", listeners := [], track := none,
    state := { playing := false, position := 0, serverPlayAt := none },
    createdAt := 0, aiState := flatAi }

/-- The host connection of `room0`. -/
def hostConn0 : Conn := { sid := 0, code := some "AAAAAA", isHost := true, joined := ["AAAAAA"] }

/-- Host 0 owns room `AAAAAA`; socket 1 is connected but in no room. -/
def stBase : SrvState := { rooms := [("AAAAAA", room0)], conns := [hostConn0, freshConn 1] }

/-- Copy of `room0` with socket 1 as a listener. -/
def roomL : Room := { room0 with listeners := [1] }

/-- The listener connection of socket 1 in room `AAAAAA`. -/
def listConn1 : Conn := { sid := 1, code := some "AAAAAA", isHost := false, joined := ["AAAAAA"] }

/-- Host 0 owns room `AAAAAA` with listener 1. -/
def stWithListener : SrvState := { rooms := [("AAAAAA", roomL)], conns := [hostConn0, listConn1] }

/-- A sample track payload. -/
def sampleTrack : Track :=
  { streamUrl := "u", title := "t", originalUrl := "o", directUrl := "d" }

/-- The empty server state. -/
def emptySrv : SrvState := { rooms := [], conns := [] }

/-! ## C1 -/

/-- C1: for every live session and every playback- or track-mutation message
(`track:set`, `audio:play`, `audio:pause`, `audio:seek`) arriving from a
connection `s` that is not that session's recorded host, the session's entry
(hence its `state` and `track` fields) is left unchanged, no reply is sent,
and no emitted event is delivered to the sender. -/
theorem nonHost_mutations_leave_session_unchanged
    (st : SrvState) (s : Nat) (c : String) (r : Room) (t : Track)
    (pos : Int) (spa : Option Int) (pl : Bool)
    (hfind : findRoom st.rooms c = some r) (hnh : r.host ≠ s) :
    (findRoom (trackSet st s t).st.rooms c = some r ∧
      (trackSet st s t).reply = none ∧
      ∀ de ∈ (trackSet st s t).emits, s ∉ deliveredTo (trackSet st s t).st de.1) ∧
    (findRoom (audioPlay st s pos spa).st.rooms c = some r ∧
      (audioPlay st s pos spa).reply = none ∧
      ∀ de ∈ (audioPlay st s pos spa).emits, s ∉ deliveredTo (audioPlay st s pos spa).st de.1) ∧
    (findRoom (audioPause st s pos).st.rooms c = some r ∧
      (audioPause st s pos).reply = none ∧
      ∀ de ∈ (audioPause st s pos).emits, s ∉ deliveredTo (audioPause st s pos).st de.1) ∧
    (findRoom (audioSeek st s pos pl spa).st.rooms c = some r ∧
      (audioSeek st s pos pl spa).reply = none ∧
      ∀ de ∈ (audioSeek st s pos pl spa).emits, s ∉ deliveredTo (audioSeek st s pos pl spa).st de.1) :=
  ⟨guardedMut_frame st s c r hfind hnh (setTrackUpd t) (Ev.trackSet t),
   guardedMut_frame st s c r hfind hnh (playUpd pos spa) (Ev.play pos spa),
   guardedMut_frame st s c r hfind hnh (pauseUpd pos) (Ev.pause pos),
   guardedMut_frame st s c r hfind hnh (seekUpd pos pl spa) (Ev.seek pos pl spa)⟩

/-- C1 witness: listener 1 of `stWithListener` sends a `track:set` and an
`audio:play`; the room entry is unchanged and no reply is produced. -/
theorem nonHost_mutations_leave_session_unchanged_witness :
    findRoom (trackSet stWithListener 1 sampleTrack).st.rooms "AAAAAA" = some roomL ∧
    (trackSet stWithListener 1 sampleTrack).reply = none ∧
    findRoom (audioPlay stWithListener 1 9 (some 5)).st.rooms "AAAAAA" = some roomL := by
  obtain ⟨hts, hpl, _, _⟩ := nonHost_mutations_leave_session_unchanged
    stWithListener 1 "AAAAAA" roomL sampleTrack 9 (some 5) true
    (by decide) (by decide)
  exact ⟨hts.1, hts.2.1, hpl.1⟩

/-! ## C2 -/

/-- C2 counterexample: the host of `stBase` sends an accepted
`audio:play {position: 5, serverPlayAt: null}`; the resulting session state
has `playing = true` with `serverPlayAt = null`, so `play` does not always
yield a non-null `serverPlayAt` and the claimed iff invariant fails. -/
theorem play_null_serverPlayAt_breaks_invariant :
    (findRoom (audioPlay stBase 0 5 none).st.rooms "AAAAAA").map (fun r => r.state)
      = some { playing := true, position := 5, serverPlayAt := none } := by decide

/-- C2 amended: after every accepted host operation the session state is a
pure function of the payload: `setTrack` resets the state to
`{playing:false, position:0, serverPlayAt:null}`; `pause` yields
`{playing:false, position, serverPlayAt:null}`; `play` stores
`{playing:true, position, serverPlayAt}` with `serverPlayAt` taken
unvalidated from the payload; `seek` with `resumePlaying = true` stores the payload's
`serverPlayAt` unvalidated (like `play`) and `seek` with
`resumePlaying = false` stores `null`. Consequently `serverPlayAt` is
non-null iff `playing` holds after `setTrack`, `pause` and
`seek(resumePlaying=false)`, and after `play`/`seek(resumePlaying=true)`
exactly when the payload's `serverPlayAt` is non-null. -/
theorem accepted_ops_state_machine
    (st : SrvState) (s : Nat) (cn : Conn) (c : String) (r : Room)
    (h1 : getConn st.conns s = some cn) (h2 : cn.code = some c)
    (h3 : findRoom st.rooms c = some r) (h4 : r.host = s)
    (t : Track) (pos spa : Int) (spaAny : Option Int) :
    (findRoom (trackSet st s t).st.rooms c).map (fun r => r.state)
        = some { playing := false, position := 0, serverPlayAt := none } ∧
    (findRoom (audioPause st s pos).st.rooms c).map (fun r => r.state)
        = some { playing := false, position := pos, serverPlayAt := none } ∧
    (findRoom (audioPlay st s pos (some spa)).st.rooms c).map (fun r => r.state)
        = some { playing := true, position := pos, serverPlayAt := some spa } ∧
    (findRoom (audioPlay st s pos spaAny).st.rooms c).map (fun r => r.state)
        = some { playing := true, position := pos, serverPlayAt := spaAny } ∧
    (findRoom (audioSeek st s pos true (some spa)).st.rooms c).map (fun r => r.state)
        = some { playing := true, position := pos, serverPlayAt := some spa } ∧
    (findRoom (audioSeek st s pos true spaAny).st.rooms c).map (fun r => r.state)
        = some { playing := true, position := pos, serverPlayAt := spaAny } ∧
    (findRoom (audioSeek st s pos false spaAny).st.rooms c).map (fun r => r.state)
        = some { playing := false, position := pos, serverPlayAt := none } := by
  refine ⟨?_, ?_, ?_, ?_, ?_, ?_, ?_⟩
  · show (findRoom (guardedMut st s (setTrackUpd t) (Ev.trackSet t)).st.rooms c).map
        (fun r => r.state) = _
    rw [guardedMut_room st s cn c r h1 h2 h3 h4]
    rfl
  · show (findRoom (guardedMut st s (pauseUpd pos) (Ev.pause pos)).st.rooms c).map
        (fun r => r.state) = _
    rw [guardedMut_room st s cn c r h1 h2 h3 h4]
    rfl
  · show (findRoom (guardedMut st s (playUpd pos (some spa)) (Ev.play pos (some spa))).st.rooms c).map
        (fun r => r.state) = _
    rw [guardedMut_room st s cn c r h1 h2 h3 h4]
    rfl
  · show (findRoom (guardedMut st s (playUpd pos spaAny) (Ev.play pos spaAny)).st.rooms c).map
        (fun r => r.state) = _
    rw [guardedMut_room st s cn c r h1 h2 h3 h4]
    rfl
  · show (findRoom (guardedMut st s (seekUpd pos true (some spa))
        (Ev.seek pos true (some spa))).st.rooms c).map (fun r => r.state) = _
    rw [guardedMut_room st s cn c r h1 h2 h3 h4]
    rfl
  · show (findRoom (guardedMut st s (seekUpd pos true spaAny)
        (Ev.seek pos true spaAny)).st.rooms c).map (fun r => r.state) = _
    rw [guardedMut_room st s cn c r h1 h2 h3 h4]
    rfl
  · show (findRoom (guardedMut st s (seekUpd pos false spaAny)
        (Ev.seek pos false spaAny)).st.rooms c).map (fun r => r.state) = _
    rw [guardedMut_room st s cn c r h1 h2 h3 h4]
    rfl

/-- C2 amended witness: the state-machine equalities instantiated on the
concrete base state, including a resuming seek whose payload `serverPlayAt`
is null and is stored as-is. -/
theorem accepted_ops_state_machine_witness :
    (findRoom (trackSet stBase 0 sampleTrack).st.rooms "AAAAAA").map (fun r => r.state)
        = some { playing := false, position := 0, serverPlayAt := none } ∧
    (findRoom (audioPlay stBase 0 7 (some 999)).st.rooms "AAAAAA").map (fun r => r.state)
        = some { playing := true, position := 7, serverPlayAt := some 999 } ∧
    (findRoom (audioSeek stBase 0 7 true none).st.rooms "AAAAAA").map (fun r => r.state)
        = some { playing := true, position := 7, serverPlayAt := none } := by
  obtain ⟨hts, _, hpl, _, _, hsk, _⟩ := accepted_ops_state_machine
    stBase 0 hostConn0 "AAAAAA" room0 (by decide) (by decide) (by decide) (by decide)
    sampleTrack 7 999 none
  exact ⟨hts, hpl, hsk⟩

/-! ## C3 -/

/-- A pre-existing room hosted by socket 7, registered under `AAAAAA`. -/
def oldRoom7 : Room := { room0 with host := 7, name := "Old" }

/-- A registry already holding a live session under code `AAAAAA`. -/
def stCollide : SrvState := { rooms := [("AAAAAA", oldRoom7)], conns := [freshConn 0, freshConn 7] }

/-- A `makeCode` stream that collides on every attempt. -/
def genAAA : Nat → String := fun _ => "AAAAAA"

/-- A `makeCode` stream whose second attempt is fresh. -/
def genAB : Nat → String := fun i => if i = 0 then "AAAAAA" else "BBBBBB"

set_option maxRecDepth 8192 in
/-- C3 counterexample: with every generated code colliding with the live
session `AAAAAA` (the constant stream is a genuine `makeCode` output),
`room:create` exhausts its 100 retries and then replies `ok` — there is no
`Collision` error — registering the new session under `AAAAAA` and silently
replacing the live session that held that code. -/
theorem create_overwrites_live_session_on_collision :
    makeCode (fun _ => (0 : Fin 32)) = "AAAAAA" ∧
    findRoom stCollide.rooms "AAAAAA" = some oldRoom7 ∧
    (roomCreate stCollide 0 "X" genAAA 99).reply = some (Reply.createOk "AAAAAA" "X") ∧
    (findRoom (roomCreate stCollide 0 "X" genAAA 99).st.rooms "AAAAAA").map (fun r => r.host)
      = some 0 := by
  refine ⟨by decide, by decide, by decide, by decide⟩

set_option maxRecDepth 8192 in
/-- C3 amended: `room:create` never fails. It retries generation up to 100
times while the candidate collides with a live code and always replies
`{ok:true}` with the final candidate. Whenever any of the up-to-101 generated
codes is fresh, the registered code is fresh and every previously live
session is preserved; if all collide, the session is registered under the
last candidate, replacing the live session stored there. -/
theorem create_bounded_retry_then_registers (st : SrvState) (s : Nat) (name : String)
    (gen : Nat → String) (now : Int) :
    (roomCreate st s name gen now).reply
        = some (Reply.createOk (pickCode st.rooms gen) ((nameOr name "Audio Room").take 50)) ∧
    ((∃ i, i ≤ 100 ∧ findRoom st.rooms (gen i) = none) →
      findRoom st.rooms (pickCode st.rooms gen) = none ∧
      ∀ c r, findRoom st.rooms c = some r →
        findRoom (roomCreate st s name gen now).st.rooms c = some r) := by
  constructor
  · unfold roomCreate
    dsimp only
  · intro hex
    have hfresh := pickCode_fresh st.rooms gen hex
    refine ⟨hfresh, ?_⟩
    intro c r hc
    have hne : c ≠ pickCode st.rooms gen := by
      intro he
      rw [he, hfresh] at hc
      exact absurd hc (by simp)
    unfold roomCreate
    dsimp only
    rw [findRoom_setRoomKey, if_neg hne, hc]

set_option maxRecDepth 8192 in
/-- C3 amended witness: on `stCollide` with a stream whose second candidate
`BBBBBB` is fresh, the registered code is fresh and the old session survives. -/
theorem create_bounded_retry_then_registers_witness :
    findRoom stCollide.rooms (pickCode stCollide.rooms genAB) = none ∧
    findRoom (roomCreate stCollide 0 "X" genAB 99).st.rooms "AAAAAA" = some oldRoom7 := by
  have h := (create_bounded_retry_then_registers stCollide 0 "X" genAB 99).2
    ⟨1, by decide, by decide⟩
  exact ⟨h.1, h.2 "AAAAAA" oldRoom7 (by decide)⟩

/-! ## C4 -/

set_option maxRecDepth 4096 in
/-- C4 counterexample: the session of `stBase` was created at time 0 and is
touched by an accepted `audio:play` mutation, yet the sweep at
`now = ROOM_TTL + 1` still removes it: the sweep compares `now` against the
session's `createdAt` — no `lastActiveAt` exists and mutations refresh no
activity timestamp — so an actively touched session ages out anyway. -/
theorem touched_session_still_swept :
    (findRoom (audioPlay stBase 0 3 (some 100)).st.rooms "AAAAAA").isSome = true ∧
    findRoom (sweep (audioPlay stBase 0 3 (some 100)).st 21600001).st.rooms "AAAAAA" = none := by
  refine ⟨by decide, by decide⟩

/-- C4 amended: the periodic sweep removes exactly those sessions whose
`createdAt` is older than `now - ROOM_TTL`; activity refreshes nothing, so a
session survives a sweep iff it was created within the ttl window, regardless
of traffic. -/
theorem sweep_removes_exactly_createdAt_expired (st : SrvState) (now : Int)
    (hnd : (st.rooms.map Prod.fst).Nodup) (c : String) (r : Room) :
    findRoom (sweep st now).st.rooms c = some r ↔
      (findRoom st.rooms c = some r ∧ now - r.createdAt ≤ ROOM_TTL) := by
  show findRoom (sweepRooms now st.rooms) c = some r ↔ _
  unfold sweepRooms
  rw [findRoom_filter _ st.rooms hnd c]
  cases hf : findRoom st.rooms c with
  | none => simp
  | some r0 =>
    by_cases hq : now - r0.createdAt > ROOM_TTL
    · simp only [hq]
      constructor
      · intro h
        simp at h
      · rintro ⟨hr, hle⟩
        have : r0 = r := by simpa using hr
        subst this
        omega
    · simp only [hq]
      constructor
      · intro h
        have : r0 = r := by simpa using h
        subst this
        exact ⟨rfl, by omega⟩
      · rintro ⟨hr, _⟩
        have : r0 = r := by simpa using hr
        subst this
        simp

/-- C4 amended witness: a sweep inside the ttl window keeps the session. -/
theorem sweep_removes_exactly_createdAt_expired_witness :
    findRoom (sweep stBase 5).st.rooms "AAAAAA" = some room0 :=
  (sweep_removes_exactly_createdAt_expired stBase 5 (by decide) "AAAAAA" room0).mpr
    ⟨by decide, by decide⟩

/-- The not-found branch of `room:join`. -/
theorem roomJoin_notFound (st : SrvState) (s : Nat) (codeRaw : String)
    (hnone : findRoom st.rooms (normCode codeRaw) = none) :
    roomJoin st s codeRaw =
      { st := st, emits := [],
        reply := some (Reply.errReply "Room not found. Check the code.") } := by
  unfold roomJoin
  dsimp only
  rw [hnone]

/-- The capacity branch of `room:join`. -/
theorem roomJoin_full (st : SrvState) (s : Nat) (codeRaw : String) (room : Room)
    (hsome : findRoom st.rooms (normCode codeRaw) = some room)
    (hcap : room.listeners.length ≥ 50) :
    roomJoin st s codeRaw =
      { st := st, emits := [],
        reply := some (Reply.errReply "Room is full (max 50).") } := by
  unfold roomJoin
  dsimp only
  rw [hsome]
  dsimp only
  rw [if_pos hcap]

/-- The success branch of `room:join`. -/
theorem roomJoin_success (st : SrvState) (s : Nat) (codeRaw : String) (room : Room)
    (hsome : findRoom st.rooms (normCode codeRaw) = some room)
    (hcap : room.listeners.length < 50) :
    roomJoin st s codeRaw =
      { st := { rooms := updRoom st.rooms (normCode codeRaw) (joinUpd s)
                conns := updConn st.conns s (joinConnUpd (normCode codeRaw)) }
        emits :=
          [ (Dest.direct room.host, Ev.listenerJoined s (room.listeners.length + 1)),
            (Dest.chanExcept (normCode codeRaw) none,
              Ev.roomCount (room.listeners.length + 1)) ]
        reply := some (Reply.joinOk room.name room.track room.state room.aiState
          (room.listeners.length + 1)) } := by
  unfold roomJoin
  dsimp only
  rw [hsome]
  dsimp only
  rw [if_neg (by omega)]

/-! ## C5 -/

/-- The output of `disconnect` for a host-bound connection. -/
theorem disconnect_host_out (st : SrvState) (s : Nat) (cn : Conn) (c : String) (room : Room)
    (h1 : getConn st.conns s = some cn) (h2 : cn.code = some c) (h3 : cn.isHost = true)
    (h4 : findRoom st.rooms c = some room) :
    disconnect st s =
      { st := { rooms := delRoom st.rooms c, conns := delConn st.conns s }
        emits := [ (Dest.chanExcept c none, Ev.hostLeft) ]
        reply := none } := by
  unfold disconnect
  simp [h1, h2, h3, h4]

/-- A stream of `makeCode` results that always returns `BBBBBB`. -/
def genB : Nat → String := fun _ => "BBBBBB"

/-- A reachable trace: 0 creates room `AAAAAA`, 1 joins it, 2 creates room
`BBBBBB`, and then host 0 joins `BBBBBB`, rebinding its `socket.data`. -/
def reboundTrace : List Step :=
  [ Step.connect 0, Step.create 0 "A" genAAA 0, Step.connect 1, Step.join 1 "AAAAAA",
    Step.connect 2, Step.create 2 "B" genB 0, Step.join 0 "BBBBBB" ]

set_option maxRecDepth 8192 in
/-- C5 counterexample: after `reboundTrace`, session `AAAAAA` is live and its
recorded host is connection 0, but 0's `socket.data` is now bound to
`BBBBBB` with `isHost = false`. When 0 disconnects, the handler runs the
listener branch against `BBBBBB`: no `hostLeft` is emitted at all, session
`AAAAAA` stays in the registry, and a later join for `AAAAAA` does not fail
with the not-found error — refuting the claim for this live session. -/
theorem rebound_host_disconnect_skips_cascade :
    (findRoom (run emptySrv reboundTrace).rooms "AAAAAA").map (fun r => r.host) = some 0 ∧
    ((disconnect (run emptySrv reboundTrace) 0).emits.map (fun de => de.2)).contains
        Ev.hostLeft = false ∧
    (findRoom (disconnect (run emptySrv reboundTrace) 0).st.rooms "AAAAAA").isSome = true ∧
    (roomJoin (connect (disconnect (run emptySrv reboundTrace) 0).st 3) 3 "AAAAAA").reply
        ≠ some (Reply.errReply "Room not found. Check the code.") := by
  decide

/-- C5 amended: when the host connection of a live session disconnects while
still bound to it (its `socket.data.code` is the session's code and
`socket.data.isHost` is set — the state `room:create` left, persisting
unless the host later created or joined another session), the session is
removed from the registry, exactly one `hostLeft` broadcast is emitted to
the session channel, every remaining listener still in the channel receives
it exactly once, and any subsequent `room:join` resolving to that code is
answered with the not-found error. If the host has rebound its connection by
a later join, its disconnect touches only the newly bound session and the
original session is neither notified nor removed. -/
theorem host_disconnect_cascade (st : SrvState) (s : Nat) (cn : Conn) (c : String)
    (room : Room)
    (h1 : getConn st.conns s = some cn) (h2 : cn.code = some c) (h3 : cn.isHost = true)
    (h4 : findRoom st.rooms c = some room) (h5 : room.host = s)
    (hnd : (st.conns.map Conn.sid).Nodup) :
    findRoom (disconnect st s).st.rooms c = none ∧
    (disconnect st s).emits = [ (Dest.chanExcept c none, Ev.hostLeft) ] ∧
    (∀ l lcn, getConn st.conns l = some lcn → l ≠ s → lcn.joined.contains c = true →
      (deliveredTo (disconnect st s).st (Dest.chanExcept c none)).count l = 1) ∧
    (∀ s2 c2, normCode c2 = c → (roomJoin (disconnect st s).st s2 c2).reply
        = some (Reply.errReply "Room not found. Check the code.")) := by
  have hout := disconnect_host_out st s cn c room h1 h2 h3 h4
  refine ⟨?_, ?_, ?_, ?_⟩
  · rw [hout]
    show findRoom (delRoom st.rooms c) c = none
    rw [findRoom_delRoom, if_pos rfl]
  · rw [hout]
  · intro l lcn hl hls hjoin
    rw [hout]
    have hm := getConn_mem hl
    have hsne : lcn.sid ≠ s := by rw [hm.2]; exact hls
    have hmem : l ∈ deliveredTo
        ({ rooms := delRoom st.rooms c, conns := delConn st.conns s } : SrvState)
        (Dest.chanExcept c none) :=
      mem_deliveredTo_chan.mpr ⟨lcn, mem_delConn st.conns s hm.1 hsne, hm.2, hjoin, by simp⟩
    have hnd' : ((delConn st.conns s).map Conn.sid).Nodup :=
      hnd.sublist (List.Sublist.map Conn.sid (List.filter_sublist st.conns))
    exact count_deliveredTo_chan _ c none l hnd' hmem
  · intro s2 c2 hc2
    have hn : findRoom (disconnect st s).st.rooms (normCode c2) = none := by
      rw [hout, hc2]
      show findRoom (delRoom st.rooms c) c = none
      rw [findRoom_delRoom, if_pos rfl]
    rw [roomJoin_notFound _ s2 c2 hn]

/-- C5 witness: host 0 of `stWithListener` disconnects; the room is gone,
listener 1 receives the single `hostLeft` broadcast exactly once, and a
fresh join for `AAAAAA` is answered not-found. -/
theorem host_disconnect_cascade_witness :
    findRoom (disconnect stWithListener 0).st.rooms "AAAAAA" = none ∧
    (deliveredTo (disconnect stWithListener 0).st (Dest.chanExcept "AAAAAA" none)).count 1 = 1 ∧
    (roomJoin (disconnect stWithListener 0).st 2 "AAAAAA").reply
      = some (Reply.errReply "Room not found. Check the code.") := by
  obtain ⟨ha, _, hc, hd⟩ := host_disconnect_cascade stWithListener 0 hostConn0 "AAAAAA"
    roomL (by decide) (by decide) (by decide) (by decide) (by decide) (by decide)
  exact ⟨ha, hc 1 listConn1 (by decide) (by decide) (by decide), hd 2 "AAAAAA" (by decide)⟩

/-! ## C6 -/

/-- C6: a listener joining after an accepted
`audio:play` with position `P` and `serverPlayAt = T` (with no later mutation)
synchronously receives the full snapshot: the reply carries the current
track and `state = {playing:true, position:P, serverPlayAt:T}` — the same
position and deadline broadcast in the `play` event that earlier listeners
received. -/
theorem late_join_gets_play_snapshot (st : SrvState) (h : Nat) (cn : Conn) (c : String)
    (room : Room)
    (h1 : getConn st.conns h = some cn) (h2 : cn.code = some c)
    (h3 : findRoom st.rooms c = some room) (h4 : room.host = h)
    (P T : Int) (s : Nat) (c2 : String) (hc2 : normCode c2 = c)
    (hcap : room.listeners.length < 50) :
    (audioPlay st h P (some T)).emits
        = [ (Dest.chanExcept c (some h), Ev.play P (some T)) ] ∧
    (roomJoin (audioPlay st h P (some T)).st s c2).reply
        = some (Reply.joinOk room.name room.track
            { playing := true, position := P, serverPlayAt := some T }
            room.aiState (room.listeners.length + 1)) := by
  have happ := guardedMut_applies st h cn c room h1 h2 h3 h4
    (playUpd P (some T)) (Ev.play P (some T))
  have hroom := guardedMut_room st h cn c room h1 h2 h3 h4
    (playUpd P (some T)) (Ev.play P (some T))
  constructor
  · exact happ.2.2.1
  · rw [roomJoin_success (audioPlay st h P (some T)).st s c2 (playUpd P (some T) room)
        (by rw [hc2]; exact hroom) hcap]
    rfl

/-- C6 witness: socket 1 joins `stBase` after the host's accepted play at
position 7 with `serverPlayAt = 999` and receives that exact state. -/
theorem late_join_gets_play_snapshot_witness :
    (roomJoin (audioPlay stBase 0 7 (some 999)).st 1 "AAAAAA").reply
      = some (Reply.joinOk "Audio Room" none
          { playing := true, position := 7, serverPlayAt := some 999 } flatAi 1) := by
  have h := (late_join_gets_play_snapshot stBase 0 hostConn0 "AAAAAA" room0
    (by decide) (by decide) (by decide) (by decide) 7 999 1 "AAAAAA"
    (by decide) (by decide)).2
  exact h

/-! ## C7 -/

/-- C7: `room:join` answers not-found when no live session matches the
normalised code, answers the capacity error when the room already has 50
listeners, and otherwise appends the joiner to the listeners, notifies the
host with `listener_joined`, broadcasts the updated count to the whole
session channel, and replies with the full snapshot; error branches change
no state and emit nothing. -/
theorem join_branches (st : SrvState) (s : Nat) (codeRaw : String) :
    (findRoom st.rooms (normCode codeRaw) = none →
      (roomJoin st s codeRaw).reply = some (Reply.errReply "Room not found. Check the code.") ∧
      (roomJoin st s codeRaw).st = st ∧ (roomJoin st s codeRaw).emits = []) ∧
    (∀ room, findRoom st.rooms (normCode codeRaw) = some room →
      room.listeners.length ≥ 50 →
      (roomJoin st s codeRaw).reply = some (Reply.errReply "Room is full (max 50).") ∧
      (roomJoin st s codeRaw).st = st ∧ (roomJoin st s codeRaw).emits = []) ∧
    (∀ room, findRoom st.rooms (normCode codeRaw) = some room →
      room.listeners.length < 50 →
      findRoom (roomJoin st s codeRaw).st.rooms (normCode codeRaw) = some (joinUpd s room) ∧
      (roomJoin st s codeRaw).emits
        = [ (Dest.direct room.host, Ev.listenerJoined s (room.listeners.length + 1)),
            (Dest.chanExcept (normCode codeRaw) none, Ev.roomCount (room.listeners.length + 1)) ] ∧
      (roomJoin st s codeRaw).reply
        = some (Reply.joinOk room.name room.track room.state room.aiState
            (room.listeners.length + 1))) := by
  refine ⟨?_, ?_, ?_⟩
  · intro hnone
    rw [roomJoin_notFound st s codeRaw hnone]
    exact ⟨rfl, rfl, rfl⟩
  · intro room hsome hcap
    rw [roomJoin_full st s codeRaw room hsome hcap]
    exact ⟨rfl, rfl, rfl⟩
  · intro room hsome hcap
    rw [roomJoin_success st s codeRaw room hsome hcap]
    refine ⟨?_, rfl, rfl⟩
    dsimp only
    rw [findRoom_updRoom, if_pos rfl, hsome]
    rfl

/-- A room already at the 50-listener cap. -/
def fullRoom : Room := { room0 with listeners := List.range 50 }

/-- A registry holding the full room. -/
def stFull : SrvState := { rooms := [("AAAAAA", fullRoom)], conns := [freshConn 1] }

/-- C7 witness: the not-found reply, the capacity reply on a 50-listener
room, and a successful join's registry update, all on concrete states. -/
theorem join_branches_witness :
    (roomJoin stBase 1 "NOPE").reply = some (Reply.errReply "Room not found. Check the code.") ∧
    (roomJoin stFull 1 "AAAAAA").reply = some (Reply.errReply "Room is full (max 50).") ∧
    findRoom (roomJoin stBase 1 "AAAAAA").st.rooms "AAAAAA" = some (joinUpd 1 room0) := by
  refine ⟨((join_branches stBase 1 "NOPE").1 (by decide)).1,
    ((join_branches stFull 1 "AAAAAA").2.1 fullRoom (by decide) (by decide)).1, ?_⟩
  have h := ((join_branches stBase 1 "AAAAAA").2.2 room0 (by decide) (by decide)).1
  rw [show normCode "AAAAAA" = "AAAAAA" from by decide] at h
  exact h

/-! ## C8 -/

/-- A trace in which the host creates a room and then joins it itself. -/
def selfJoinTrace : List Step :=
  [ Step.connect 0, Step.create 0 "X" genAAA 0, Step.join 0 "AAAAAA" ]

/-- C8 counterexample: `room:join` performs no host-membership check, so a
host that sends `room:join` with its own session's code is appended to that
session's listeners: after the trace the room's recorded host 0 is an
element of its listeners list. -/
theorem host_join_own_room_becomes_listener :
    (findRoom (run emptySrv selfJoinTrace).rooms "AAAAAA").map
        (fun r => (r.host, r.listeners)) = some (0, [0]) := by decide

/-- Helper: a pointwise host-inequality fact transfers to every room the
lookup can return. -/
theorem hostNe_of_findRoom_eq (rooms : List (String × Room)) (c : String) (r0 : Room)
    (n : Nat) (hs : findRoom rooms c = some r0) (hne : r0.host ≠ n) :
    ∀ r, findRoom rooms c = some r → r.host ≠ n := by
  intro r hr
  rw [hs] at hr
  have he : r0 = r := by simpa using hr
  exact he ▸ hne

/-- C8 amended: every live session has exactly one host by construction (a
single `host` field written only at creation), and in every state reached by
a trace that contains no join by a session's own recorded host — starting
from a well-formed registry — no session's host is an element of its
listeners. The restriction is forced: the code lets a host join its own
session, which places the host in `listeners`. -/
theorem host_not_listener_in_selfJoinFree_runs (st : SrvState) (steps : List Step)
    (hg : goodRooms st) (hfree : selfJoinFree st steps) (c : String) (r : Room)
    (hfr : findRoom (run st steps).rooms c = some r) : r.host ∉ r.listeners := by
  obtain ⟨_, hinv⟩ := goodRooms_run steps st hg hfree
  exact hinv (c, r) (findRoom_mem hfr)

/-- The room of the demo trace just before the listener joins. -/
def preDemoRoom : Room :=
  { host := 0, name := "X", listeners := [], track := none,
    state := { playing := false, position := 0, serverPlayAt := none },
    createdAt := 5, aiState := flatAi }

/-- A self-join-free demo trace: host 0 creates, socket 1 joins. -/
def demoTrace : List Step :=
  [ Step.connect 0, Step.create 0 "X" genAAA 5, Step.connect 1, Step.join 1 "AAAAAA" ]

/-- The room after the demo trace. -/
def demoRoom : Room := { preDemoRoom with listeners := [1] }

set_option maxRecDepth 8192 in
/-- C8 amended witness: the invariant evaluated on the demo trace's final room. -/
theorem host_not_listener_in_selfJoinFree_runs_witness :
    demoRoom.host ∉ demoRoom.listeners := by
  refine host_not_listener_in_selfJoinFree_runs emptySrv demoTrace
    ⟨List.nodup_nil, ?_⟩ ?_ "AAAAAA" demoRoom (by decide)
  · intro p hp
    cases hp
  · refine ⟨trivial, trivial, trivial, ?_, trivial⟩
    exact hostNe_of_findRoom_eq _ _ preDemoRoom 1 (by decide) (by decide)

/-! ## C9 -/

/-- C9 counterexample: when socket 1 joins `stBase`, the `room:count`
broadcast goes to the whole channel, so the originator receives one event
(the claim says it receives none) and the host — one other member — receives
two events (`listener_joined` and `room:count`), not exactly one. -/
theorem join_broadcasts_reach_originator_and_double_host :
    ((roomJoin stBase 1 "AAAAAA").emits.filter
        (fun de => (deliveredTo (roomJoin stBase 1 "AAAAAA").st de.1).contains 1)).length = 1 ∧
    ((roomJoin stBase 1 "AAAAAA").emits.filter
        (fun de => (deliveredTo (roomJoin stBase 1 "AAAAAA").st de.1).contains 0)).length = 2 := by
  refine ⟨by decide, by decide⟩

/-- The output of `disconnect` for a listener-bound connection. -/
theorem disconnect_listener_out (st : SrvState) (s : Nat) (cn : Conn) (c : String)
    (room : Room)
    (h1 : getConn st.conns s = some cn) (h2 : cn.code = some c) (h3 : cn.isHost = false)
    (h4 : findRoom st.rooms c = some room) :
    disconnect st s =
      { st := { rooms := updRoom st.rooms c (leaveUpd s), conns := delConn st.conns s }
        emits :=
          [ (Dest.direct room.host,
              Ev.listenerLeft s (room.listeners.filter (fun id => id ≠ s)).length),
            (Dest.chanExcept c none,
              Ev.roomCount (room.listeners.filter (fun id => id ≠ s)).length) ]
        reply := none } := by
  unfold disconnect
  simp [h1, h2, h3, h4]

/-- A disconnected socket is delivered nothing, whatever the destination. -/
theorem gone_not_delivered (rooms : List (String × Room)) (conns : List Conn) (l : Nat)
    (d : Dest) :
    l ∉ deliveredTo { rooms := rooms, conns := delConn conns l } d := by
  intro hmem
  cases d with
  | chanExcept code excl =>
    obtain ⟨cn, hcn, hsid, _, _⟩ := mem_deliveredTo_chan.mp hmem
    have hf := (List.mem_filter.mp hcn).2
    simp at hf
    exact hf hsid
  | direct sid =>
    simp only [deliveredTo] at hmem
    dsimp only at hmem
    by_cases hsl : sid = l
    · subst hsl
      simp [getConn_delConn_self] at hmem
    · by_cases hg : (getConn (delConn conns l) sid).isSome = true
      · rw [if_pos hg] at hmem
        simp at hmem
        exact hsl hmem.symm
      · rw [if_neg hg] at hmem
        simp at hmem

/-- C9 amended: an accepted host mutation emits exactly one event, addressed
to the session channel excluding the sender, so the originator receives no
copy and every other connected channel member receives it exactly once. An
accepted join emits two events: `listener_joined` to the host alone and
`room:count` to the whole channel, which the joining originator itself
receives (and the host therefore receives two events). A listener disconnect
emits `listener_left` to the host and `room:count` to the channel; the
disconnected originator, already removed, receives nothing. -/
theorem broadcast_fanout (st : SrvState) (s : Nat) (cn : Conn) (c : String) (r : Room)
    (h1 : getConn st.conns s = some cn) (h2 : cn.code = some c)
    (h3 : findRoom st.rooms c = some r) (h4 : r.host = s)
    (hnd : (st.conns.map Conn.sid).Nodup) (f : Room → Room) (ev : Ev) :
    ((guardedMut st s f ev).emits = [ (Dest.chanExcept c (some s), ev) ] ∧
      s ∉ deliveredTo (guardedMut st s f ev).st (Dest.chanExcept c (some s)) ∧
      (∀ l lcn, getConn st.conns l = some lcn → lcn.joined.contains c = true →
        (deliveredTo (guardedMut st s f ev).st (Dest.chanExcept c (some s))).count l
          = if l = s then 0 else 1)) ∧
    (∀ j jcn, getConn st.conns j = some jcn → r.listeners.length < 50 →
      ∀ c2, normCode c2 = c →
        (roomJoin st j c2).emits
          = [ (Dest.direct r.host, Ev.listenerJoined j (r.listeners.length + 1)),
              (Dest.chanExcept c none, Ev.roomCount (r.listeners.length + 1)) ] ∧
        j ∈ deliveredTo (roomJoin st j c2).st (Dest.chanExcept c none)) ∧
    (∀ l lcn, getConn st.conns l = some lcn → lcn.code = some c → lcn.isHost = false →
      (disconnect st l).emits
        = [ (Dest.direct r.host,
              Ev.listenerLeft l (r.listeners.filter (fun id => id ≠ l)).length),
            (Dest.chanExcept c none,
              Ev.roomCount (r.listeners.filter (fun id => id ≠ l)).length) ] ∧
      ∀ de ∈ (disconnect st l).emits, l ∉ deliveredTo (disconnect st l).st de.1) := by
  have happ := guardedMut_applies st s cn c r h1 h2 h3 h4 f ev
  refine ⟨⟨happ.2.2.1, ?_, ?_⟩, ?_, ?_⟩
  · exact not_mem_deliveredTo_self _ c s
  · intro l lcn hl hjoin
    by_cases hls : l = s
    · rw [if_pos hls]
      subst hls
      rw [List.count_eq_zero]
      exact not_mem_deliveredTo_self _ c l
    · rw [if_neg hls]
      have hm := getConn_mem hl
      have hmem : l ∈ deliveredTo (guardedMut st s f ev).st (Dest.chanExcept c (some s)) := by
        apply mem_deliveredTo_chan.mpr
        refine ⟨lcn, ?_, hm.2, hjoin, ?_⟩
        · rw [happ.2.1]
          exact hm.1
        · intro he
          rw [Option.some_inj] at he
          exact hls he.symm
      have hnd' : ((guardedMut st s f ev).st.conns.map Conn.sid).Nodup := by
        rw [happ.2.1]
        exact hnd
      exact count_deliveredTo_chan _ c (some s) l hnd' hmem
  · intro j jcn hj hcap c2 hc2
    have hs2 : findRoom st.rooms (normCode c2) = some r := by rw [hc2]; exact h3
    rw [roomJoin_success st j c2 r hs2 hcap]
    refine ⟨by rw [hc2], ?_⟩
    apply mem_deliveredTo_chan.mpr
    refine ⟨joinConnUpd (normCode c2) jcn, ?_, ?_, ?_, by simp⟩
    · exact mem_updConn (joinConnUpd (normCode c2)) (getConn_mem hj).1 (getConn_mem hj).2
    · exact (getConn_mem hj).2
    · rw [hc2]
      exact chanJoin_contains jcn.joined c
  · intro l lcn hl hlc hlh
    have hout := disconnect_listener_out st l lcn c r hl hlc hlh h3
    rw [hout]
    refine ⟨by rw [h4], ?_⟩
    intro de _
    exact gone_not_delivered _ st.conns l de.1

/-- C9 amended witness: the fan-out facts evaluated on concrete states — the
host's play reaches listener 1 exactly once and the host zero times; joining
socket 1 is delivered its own `room:count`; a disconnecting listener
receives none of the emitted events. -/
theorem broadcast_fanout_witness :
    (audioPlay stWithListener 0 3 (some 9)).emits
        = [ (Dest.chanExcept "AAAAAA" (some 0), Ev.play 3 (some 9)) ] ∧
    (deliveredTo (audioPlay stWithListener 0 3 (some 9)).st
        (Dest.chanExcept "AAAAAA" (some 0))).count 1 = 1 ∧
    (deliveredTo (audioPlay stWithListener 0 3 (some 9)).st
        (Dest.chanExcept "AAAAAA" (some 0))).count 0 = 0 ∧
    1 ∈ deliveredTo (roomJoin stBase 1 "AAAAAA").st (Dest.chanExcept "AAAAAA" none) := by
  obtain ⟨⟨hem, _, hcnt⟩, hjoin, _⟩ := broadcast_fanout stWithListener 0 hostConn0 "AAAAAA"
    roomL (by decide) (by decide) (by decide) (by decide) (by decide)
    (playUpd 3 (some 9)) (Ev.play 3 (some 9))
  refine ⟨hem, ?_, ?_, ?_⟩
  · have h := hcnt 1 listConn1 (by decide) (by decide)
    rw [if_neg (by decide)] at h
    exact h
  · have h := hcnt 0 hostConn0 (by decide) (by decide)
    rw [if_pos rfl] at h
    exact h
  · exact ((broadcast_fanout stBase 0 hostConn0 "AAAAAA" room0 (by decide) (by decide)
      (by decide) (by decide) (by decide) (playUpd 0 none) (Ev.play 0 none)).2.1
        1 (freshConn 1) (by decide) (by decide) "AAAAAA" (by decide)).2

/-! ## C10 -/

/-- C10: a connection's disconnect mutates at most the session recorded in
its `socket.data.code` (the most recently created or joined one); every
session stored under any other code is left entirely unchanged — including a
session the connection previously belonged to, which retains the now-dead
connection identity. -/
theorem disconnect_only_touches_bound_session (st : SrvState) (s : Nat) (c2 : String)
    (hne : some c2 ≠ (getConn st.conns s).bind (fun c => c.code)) :
    findRoom (disconnect st s).st.rooms c2 = findRoom st.rooms c2 := by
  unfold disconnect
  dsimp only
  cases hdc : (getConn st.conns s).bind (fun c => c.code) with
  | none => rfl
  | some code =>
    dsimp only
    cases hfind : findRoom st.rooms code with
    | none => rfl
    | some room =>
      dsimp only
      have hcc : c2 ≠ code := fun he => hne (by rw [hdc, he])
      by_cases hwh : (((getConn st.conns s).map (fun c => c.isHost)).getD false) = true
      · rw [if_pos hwh]
        show findRoom (delRoom st.rooms code) c2 = _
        rw [findRoom_delRoom, if_neg hcc]
      · rw [if_neg hwh]
        show findRoom (updRoom st.rooms code (leaveUpd s)) c2 = _
        rw [findRoom_updRoom, if_neg hcc]

/-- A second live room hosted by socket 2. -/
def roomB : Room := { room0 with host := 2 }

/-- The host connection of `roomB`. -/
def hostConnB : Conn := { sid := 2, code := some "BBBBBB", isHost := true, joined := ["BBBBBB"] }

/-- Two live rooms; socket 1 is a listener bound to `AAAAAA`. -/
def stTwo : SrvState :=
  { rooms := [("AAAAAA", roomL), ("BBBBBB", roomB)],
    conns := [hostConn0, listConn1, hostConnB] }

/-- C10 witness: socket 1 (bound to `AAAAAA`) disconnects; room `BBBBBB` is
untouched. -/
theorem disconnect_only_touches_bound_session_witness :
    findRoom (disconnect stTwo 1).st.rooms "BBBBBB" = findRoom stTwo.rooms "BBBBBB" ∧
    findRoom stTwo.rooms "BBBBBB" = some roomB := by
  exact ⟨disconnect_only_touches_bound_session stTwo 1 "BBBBBB" (by decide), by decide⟩

end Waveroom
